import Mathlib

/-!
Verification of the phpIPAM SaltStack execution module (src/phpipam.py).

The development shallowly embeds the module: JSON values are an inductive
type, Python dictionary/list primitives are modelled explicitly with their
truthiness and equality semantics, HTTP traffic is abstracted by a `World`
that maps each request to the response the remote phpIPAM server would
deliver, and every function of the module becomes a Lean function that also
returns the list of HTTP requests it issued.  Exceptions raised by the
Python code are modelled by `Except` with an explicit error taxonomy.
-/

namespace Phpipam

/-- A JSON value as produced by response.json, and equally a Python value
flowing through the module: None, booleans, integers, strings, lists and
dictionaries (dictionaries keep insertion order, as in Python 3.7+). -/
inductive JVal where
  | null
  | bool (b : Bool)
  | num (n : Int)
  | str (s : String)
  | arr (items : List JVal)
  | obj (fields : List (String × JVal))
deriving Inhabited, Repr

/-- Python truthiness: None, False, 0, empty string, empty list and empty
dict are falsy, everything else is truthy. -/
def truthy : JVal → Bool
  | .null => false
  | .bool b => b
  | .num n => n != 0
  | .str s => s != ""
  | .arr [] => false
  | .arr (_ :: _) => true
  | .obj [] => false
  | .obj (_ :: _) => true

/-- Dictionary field lookup (first binding wins; Python dictionaries have
unique keys, so this is exact). -/
def jLookupFs : List (String × JVal) → String → Option JVal
  | [], _ => none
  | (k, v) :: rest, key => if k = key then some v else jLookupFs rest key

mutual

/-- Fuelled Python equality on JSON values.  Python compares True with 1,
lists pointwise, and dictionaries by key set and values (order blind).
The fuel only serves to make the recursion structural; `jEq` below always
supplies enough. -/
def jEqF : Nat → JVal → JVal → Bool
  | 0, _, _ => false
  | _ + 1, .null, .null => true
  | _ + 1, .bool a, .bool b => a == b
  | _ + 1, .bool a, .num n => (if a then (1 : Int) else 0) == n
  | _ + 1, .num n, .bool a => n == (if a then (1 : Int) else 0)
  | _ + 1, .num a, .num b => a == b
  | _ + 1, .str a, .str b => a == b
  | f + 1, .arr a, .arr b => jEqListF f a b
  | f + 1, .obj a, .obj b => a.length == b.length && jEqFieldsF f a b
  | _ + 1, _, _ => false

/-- Pointwise Python equality of two lists (helper of `jEqF`). -/
def jEqListF : Nat → List JVal → List JVal → Bool
  | 0, _, _ => false
  | _ + 1, [], [] => true
  | f + 1, a :: as, b :: bs => jEqF f a b && jEqListF f as bs
  | _ + 1, _, _ => false

/-- Every key of the first dictionary is present in the second with an
equal value (helper of `jEqF`; with the length test this is Python
dictionary equality). -/
def jEqFieldsF : Nat → List (String × JVal) → List (String × JVal) → Bool
  | 0, _, _ => false
  | _ + 1, [], _ => true
  | f + 1, (k, v) :: rest, b =>
    (match jLookupFs b k with
     | some w => jEqF f v w
     | none => false) && jEqFieldsF f rest b

end

end Phpipam

mutual

/-- Size measure used to pick a sufficient fuel for `Phpipam.jEq`. -/
def Phpipam.JVal.size : Phpipam.JVal → Nat
  | .null => 1
  | .bool _ => 1
  | .num _ => 1
  | .str _ => 1
  | .arr xs => 1 + Phpipam.JVal.sizeList xs
  | .obj fs => 1 + Phpipam.JVal.sizeFields fs

/-- Size of a list of JSON values. -/
def Phpipam.JVal.sizeList : List Phpipam.JVal → Nat
  | [] => 1
  | x :: xs => 1 + Phpipam.JVal.size x + Phpipam.JVal.sizeList xs

/-- Size of the field list of a JSON object. -/
def Phpipam.JVal.sizeFields : List (String × Phpipam.JVal) → Nat
  | [] => 1
  | (_, v) :: rest => 1 + Phpipam.JVal.size v + Phpipam.JVal.sizeFields rest

end

namespace Phpipam

/-- Python equality (the == operator) on the values handled by the module. -/
def jEq (a b : JVal) : Bool := jEqF (JVal.size a) a b

/-- Python str() rendering of the scalar values the module interpolates
into resource paths.  The remote API only yields scalar record
identifiers, so container rendering is abbreviated. -/
def pyStr : JVal → String
  | .null => "None"
  | .bool b => if b then "True" else "False"
  | .num n => toString n
  | .str s => s
  | .arr _ => "<list>"
  | .obj _ => "<dict>"

/-- Little-endian decimal digit list of a natural number; the fuel makes
the recursion structural and `pyStrNat` always supplies enough. -/
def pyStrNatAux : Nat → Nat → List Char
  | 0, _ => []
  | f + 1, n =>
    if n < 10 then [Nat.digitChar n]
    else Nat.digitChar (n % 10) :: pyStrNatAux f (n / 10)

/-- Python str() of a non-negative integer index: its decimal rendering. -/
def pyStrNat (n : Nat) : String :=
  String.mk (pyStrNatAux (n + 1) n).reverse

/-- Python dict assignment d[k] = v for string keys: replace the value of
the first (only) binding of the key, keeping its position and the original
key object, else append a fresh binding. -/
def dictInsert : List (String × JVal) → String → JVal → List (String × JVal)
  | [], k, v => [(k, v)]
  | (k0, v0) :: rest, k, v =>
    if k0 = k then (k0, v) :: rest else (k0, v0) :: dictInsert rest k v

/-- Python dict assignment for dictionaries keyed by arbitrary values
(the details mapping of get_addrs_by_tag is keyed by the ip values). -/
def dictInsertJ : List (JVal × JVal) → JVal → JVal → List (JVal × JVal)
  | [], k, v => [(k, v)]
  | (k0, v0) :: rest, k, v =>
    if jEq k0 k then (k0, v) :: rest else (k0, v0) :: dictInsertJ rest k v

/-- Python dict lookup for dictionaries keyed by arbitrary values. -/
def jLookupJ : List (JVal × JVal) → JVal → Option JVal
  | [], _ => none
  | (k0, v0) :: rest, k => if jEq k0 k then some v0 else jLookupJ rest k

/-- The error taxonomy of the module: the CommandExecutionError raised on
missing configuration, the requests HTTPError raised by raise_for_status
(carrying the status code), and the Python KeyError, TypeError,
AttributeError and ValueError that the module lets propagate. -/
inductive ApiError where
  | configurationError
  | httpError (status : Nat)
  | keyError (key : String)
  | typeError
  | attributeError
  | valueError
deriving DecidableEq, Repr

/-- Python d.get(key, default) on a value: dictionaries answer the lookup
with the default on absence, any other receiver raises AttributeError. -/
def jGet : JVal → String → JVal → Except ApiError JVal
  | .obj fs, k, d => .ok ((jLookupFs fs k).getD d)
  | _, _, _ => .error .attributeError

/-- Python iteration (for x in v): lists yield their elements, dictionaries
their keys, strings their characters; other values raise TypeError. -/
def jIter : JVal → Except ApiError (List JVal)
  | .arr xs => .ok xs
  | .obj fs => .ok (fs.map (fun p => .str p.1))
  | .str s => .ok (s.toList.map (fun c => .str c.toString))
  | _ => .error .typeError

/-- Python list.index(x): position of the first element equal to x, a
ValueError (modelled by `none`) if there is none. -/
def pyIndex (xs : List JVal) (x : JVal) : Option Nat :=
  xs.findIdx? (fun y => jEq y x)

/-- An HTTP response: its status code and its JSON body.  The phpIPAM API
always answers with a JSON object, so the body is a field list. -/
structure HttpResponse where
  status : Nat
  body : List (String × JVal)
deriving Repr

/-- One HTTP request issued by the module, identified by its method and
the resource path below base_url/api/lookup/. -/
structure Request where
  method : String
  resource : String
deriving DecidableEq, Repr

/-- The authentication round-trip: POST to the user resource. -/
def authRequest : Request := { method := "POST", resource := "user" }

/-- The remote server, abstracted: the response to the authentication POST
and the response to a GET of each resource path. -/
structure World where
  authResp : HttpResponse
  getResp : String → HttpResponse

/-- requests Response.raise_for_status: raises HTTPError exactly for
status codes 400-599, and does nothing for any other code. -/
def raiseForStatus (status : Nat) : Option ApiError :=
  if 400 ≤ status ∧ status < 600 then some (.httpError status) else none

/-- The phpipam section of the master configuration, as the module reads
it: each field may be absent. -/
structure AuthConfig where
  user : Option String
  password : Option String

/-- The phpipam configuration block: url, auth subsection, verify path. -/
structure PhpipamConfig where
  url : Option String
  auth : Option AuthConfig
  verify : Option String

/-- Default TLS trust store path used when the configuration has none. -/
def defaultVerify : String := "/etc/ssl/certs/ca-certificates.crt"

/-- The try block of Api.__init__: reads url, auth, auth.user and
auth.password by key access; any missing key raises KeyError, which the
module turns into the configuration CommandExecutionError. -/
def resolveConfig (cfg : PhpipamConfig) : Except ApiError (String × String × String) :=
  match cfg.url with
  | none => .error .configurationError
  | some url =>
    match cfg.auth with
    | none => .error .configurationError
    | some a =>
      match a.user with
      | none => .error .configurationError
      | some user =>
        match a.password with
        | none => .error .configurationError
        | some password => .ok (url, user, password)

/-- token = response.json()[data][token] of Api._get_token: a missing key
raises KeyError, indexing into a non-dictionary data value raises
TypeError. -/
def extractToken (body : List (String × JVal)) : Except ApiError JVal :=
  match jLookupFs body "data" with
  | none => .error (.keyError "data")
  | some (.obj d) =>
    match jLookupFs d "token" with
    | none => .error (.keyError "token")
    | some t => .ok t
  | some _ => .error .typeError

/-- Api._get_token: one POST to the user resource; on a status other than
200 raise_for_status is invoked (raising only for 400-599), then the token
is read out of the JSON body. -/
def getToken (w : World) : Except ApiError JVal :=
  let resp := w.authResp
  if resp.status ≠ 200 then
    match raiseForStatus resp.status with
    | some e => .error e
    | none => extractToken resp.body
  else extractToken resp.body

/-- The constructed session object: configuration fields plus the token
obtained at construction. -/
structure Api where
  phpipam_url : String
  user : String
  password : String
  api_url : String
  verify : String
  token : JVal

/-- Api.__init__: resolve the configuration (KeyError becomes the
configuration error before any request is issued), then perform the single
authentication POST and store the token.  The second component is the list
of HTTP requests issued. -/
def Api.init (cfg : PhpipamConfig) (w : World) : Except ApiError Api × List Request :=
  match resolveConfig cfg with
  | .error e => (.error e, [])
  | .ok (url, user, password) =>
    match getToken w with
    | .error e => (.error e, [authRequest])
    | .ok tok =>
      (.ok { phpipam_url := url
             user := user
             password := password
             api_url := url ++ "/api/lookup/"
             verify := (cfg.verify).getD defaultVerify
             token := tok },
       [authRequest])

/-- Response handling of Api.query: on a status other than 200 invoke
raise_for_status (raising only for 400-599); then parse the JSON body: a
data field is returned as is, otherwise (message or not) an empty dict. -/
def queryResp (resp : HttpResponse) : Except ApiError JVal :=
  if resp.status ≠ 200 then
    match raiseForStatus resp.status with
    | some e => .error e
    | none =>
      match jLookupFs resp.body "data" with
      | some v => .ok v
      | none => .ok (.obj [])
  else
    match jLookupFs resp.body "data" with
    | some v => .ok v
    | none => .ok (.obj [])

/-- Api.query: one GET of the resource (with the token header), handled by
`queryResp`.  The second component is the request trace. -/
def Api.query (_api : Api) (w : World) (resource : String) :
    Except ApiError JVal × List Request :=
  (queryResp (w.getResp resource), [{ method := "GET", resource := resource }])

/-- Resource path of the hostname search in get. -/
def searchResource (key : String) : String :=
  "addresses/search_hostname_partial/" ++ key

/-- Resource path of the subnet detail query in get. -/
def subnetResource (subnetId : JVal) : String :=
  "subnets/" ++ pyStr subnetId

/-- The for loop of get: dataL is the list the search returned (used by
data.index), the second list argument is the suffix still to process, and
the last argument the dictionary ret accumulated so far. -/
def getLoop (api : Api) (w : World) (key : String) (dataL : List JVal) :
    List JVal → List (String × JVal) →
    Except ApiError (List (String × JVal)) × List Request
  | [], ret => (.ok ret, [])
  | entry :: rest, ret =>
    match jGet entry "ip" .null with
    | .error e => (.error e, [])
    | .ok ipaddr =>
      match jGet entry "hostname" .null with
      | .error e => (.error e, [])
      | .ok hostname =>
        match jGet entry "subnetId" .null with
        | .error e => (.error e, [])
        | .ok subnetId =>
          if truthy ipaddr && truthy subnetId && jEq hostname (.str key) then
            match Api.query api w (subnetResource subnetId) with
            | (.error e, tr) => (.error e, tr)
            | (.ok subnet, tr) =>
              if truthy subnet = false then
                match getLoop api w key dataL rest ret with
                | (r, tr2) => (r, tr ++ tr2)
              else
                match jGet subnet "calculation" (.obj []) with
                | .error e => (.error e, tr)
                | .ok calcv =>
                  match jGet calcv "Subnet netmask" .null with
                  | .error e => (.error e, tr)
                  | .ok netmask =>
                    match jGet subnet "description" .null with
                    | .error e => (.error e, tr)
                    | .ok descv =>
                      match pyIndex dataL entry with
                      | none => (.error .valueError, tr)
                      | some idx =>
                        match getLoop api w key dataL rest
                            (dictInsert ret (pyStrNat idx)
                              (.obj [("ipv4", ipaddr), ("netmask", netmask),
                                     ("description", descv), ("subnet_id", subnetId)])) with
                        | (r, tr2) => (r, tr ++ tr2)
          else getLoop api w key dataL rest ret

/-- get(key): construct an Api, search the hostname, return an empty dict
when nothing was found, else run the record loop. -/
def get (cfg : PhpipamConfig) (w : World) (key : String) :
    Except ApiError JVal × List Request :=
  match Api.init cfg w with
  | (.error e, tr) => (.error e, tr)
  | (.ok api, tr0) =>
    match Api.query api w (searchResource key) with
    | (.error e, tr1) => (.error e, tr0 ++ tr1)
    | (.ok data, tr1) =>
      if truthy data = false then (.ok (.obj []), tr0 ++ tr1)
      else
        match jIter data with
        | .error e => (.error e, tr0 ++ tr1)
        | .ok entries =>
          match getLoop api w key entries entries [] with
          | (.error e, tr2) => (.error e, tr0 ++ tr1 ++ tr2)
          | (.ok ret, tr2) => (.ok (.obj ret), tr0 ++ tr1 ++ tr2)

/-- get_tags(): construct an Api and pass the tag listing through. -/
def get_tags (cfg : PhpipamConfig) (w : World) :
    Except ApiError JVal × List Request :=
  match Api.init cfg w with
  | (.error e, tr) => (.error e, tr)
  | (.ok api, tr0) =>
    match Api.query api w "addresses/tags/" with
    | (r, tr1) => (r, tr0 ++ tr1)

/-- The for loop of get_tag_id: first entry whose type equals the tag
yields the result dictionary; no match yields an empty dict. -/
def tagLoop (tag : String) : List JVal → Except ApiError JVal
  | [] => .ok (.obj [])
  | entry :: rest =>
    match jGet entry "type" .null with
    | .error e => .error e
    | .ok t =>
      if jEq t (.str tag) then
        match jGet entry "id" .null with
        | .error e => .error e
        | .ok i => .ok (.obj [("tag", .str tag), ("tag_id", i)])
      else tagLoop tag rest

/-- get_tag_id(tag): iterate over get_tags() and scan for the tag. -/
def get_tag_id (cfg : PhpipamConfig) (w : World) (tag : String) :
    Except ApiError JVal × List Request :=
  match get_tags cfg w with
  | (.error e, tr) => (.error e, tr)
  | (.ok tags, tr) =>
    match jIter tags with
    | .error e => (.error e, tr)
    | .ok entries => (tagLoop tag entries, tr)

/-- The is_valid lambda of get_addrs_by_tag, evaluated on a dictionary
entry: with exclude_gateway unset everything passes; set, the entry must
be truthy and its is_gateway field falsy or absent. -/
def isValidEntry (exclude_gateway : Bool) (fs : List (String × JVal)) : Bool :=
  if exclude_gateway = false then true
  else truthy (.obj fs) && !truthy ((jLookupFs fs "is_gateway").getD .null)

/-- Result of get_addrs_by_tag: either the bare empty dict returned when
the tag does not resolve, or the three-field result dictionary (details is
keyed by the ip values, which are arbitrary Python values). -/
inductive AddrsResult where
  | empty
  | full (details : List (JVal × JVal)) (ip_addrs : List JVal) (tag : String)
deriving Repr

/-- The for loop of get_addrs_by_tag: entry.get(ip) raises
AttributeError on non-dictionary entries; valid entries write the details
dictionary and append the ip to the list. -/
def addrLoop (exclude_gateway : Bool) :
    List JVal → List (JVal × JVal) → List JVal →
    Except ApiError (List (JVal × JVal) × List JVal)
  | [], details, ips => .ok (details, ips)
  | entry :: rest, details, ips =>
    match entry with
    | .obj fs =>
      let ip_addr := (jLookupFs fs "ip").getD .null
      if isValidEntry exclude_gateway fs then
        addrLoop exclude_gateway rest
          (dictInsertJ details ip_addr
            (.obj [("description", (jLookupFs fs "description").getD .null),
                   ("hostname", (jLookupFs fs "hostname").getD .null),
                   ("is_gateway", (jLookupFs fs "is_gateway").getD .null)]))
          (ips ++ [(jLookupFs fs "ip").getD .null])
      else addrLoop exclude_gateway rest details ips
    | _ => .error .attributeError

/-- Resource path of the tagged-address listing. -/
def tagAddrsResource (tag_id : JVal) : String :=
  "addresses/tags/" ++ pyStr tag_id ++ "/addresses/"

/-- get_addrs_by_tag(tag, exclude_gateway): resolve the tag id (returning
the bare empty dict when it is falsy or absent), construct a second Api,
list the tagged addresses and shape the result. -/
def get_addrs_by_tag (cfg : PhpipamConfig) (w : World) (tag : String)
    (exclude_gateway : Bool) : Except ApiError AddrsResult × List Request :=
  match get_tag_id cfg w tag with
  | (.error e, tr) => (.error e, tr)
  | (.ok d, tr0) =>
    match jGet d "tag_id" .null with
    | .error e => (.error e, tr0)
    | .ok tag_id =>
      if truthy tag_id = false then (.ok .empty, tr0)
      else
        match Api.init cfg w with
        | (.error e, tr1) => (.error e, tr0 ++ tr1)
        | (.ok api, tr1) =>
          match Api.query api w (tagAddrsResource tag_id) with
          | (.error e, tr2) => (.error e, tr0 ++ tr1 ++ tr2)
          | (.ok data, tr2) =>
            match jIter data with
            | .error e => (.error e, tr0 ++ tr1 ++ tr2)
            | .ok entries =>
              match addrLoop exclude_gateway entries [] [] with
              | .error e => (.error e, tr0 ++ tr1 ++ tr2)
              | .ok (details, ips) =>
                (.ok (.full details ips tag), tr0 ++ tr1 ++ tr2)

end Phpipam

namespace Phpipam

/-! ### Decimal rendering: decoding and injectivity -/

/-- Decodes a little-endian list of decimal digit characters. -/
def decodeDec : List Char → Nat
  | [] => 0
  | c :: cs => (c.toNat - 48) + 10 * decodeDec cs

theorem digitChar_toNat (n : Nat) (h : n < 10) : (Nat.digitChar n).toNat = 48 + n := by
  interval_cases n <;> rfl

theorem pyStrNatAux_decode : ∀ f n, n < f → decodeDec (pyStrNatAux f n) = n := by
  intro f
  induction f with
  | zero => intro n h; exact absurd h (Nat.not_lt_zero n)
  | succ f ih =>
    intro n h
    by_cases h10 : n < 10
    · simp [pyStrNatAux, h10, decodeDec, digitChar_toNat n h10]
    · have hpos : 0 < n := by omega
      have hlt : n / 10 < f := by
        have h1 : n / 10 < n := Nat.div_lt_self hpos (by norm_num)
        omega
      have hm : n % 10 < 10 := Nat.mod_lt _ (by norm_num)
      simp [pyStrNatAux, h10, decodeDec, digitChar_toNat (n % 10) hm, ih _ hlt]
      omega

theorem pyStrNat_inj {a b : Nat} (h : pyStrNat a = pyStrNat b) : a = b := by
  have ha := pyStrNatAux_decode (a + 1) a (Nat.lt_succ_self a)
  have hb := pyStrNatAux_decode (b + 1) b (Nat.lt_succ_self b)
  have hdata := congrArg String.data h
  have hrev : (pyStrNatAux (a + 1) a).reverse = (pyStrNatAux (b + 1) b).reverse := hdata
  have hl : pyStrNatAux (a + 1) a = pyStrNatAux (b + 1) b := by
    have := congrArg List.reverse hrev
    simpa using this
  rw [← ha, ← hb, hl]

set_option maxRecDepth 10000 in
/-- Sanity: the model renders indices exactly as Python str does (checked
on an initial segment). -/
theorem pyStrNat_agrees_toString : ∀ n, n < 300 → pyStrNat n = toString n := by decide

/-! ### Counting authentication round-trips -/

/-- Number of authentication POSTs in a request trace. -/
def countAuth (tr : List Request) : Nat :=
  tr.countP (fun r => decide (r = authRequest))

theorem countAuth_append (a b : List Request) :
    countAuth (a ++ b) = countAuth a + countAuth b :=
  List.countP_append _ _ _

theorem countAuth_nil : countAuth [] = 0 := rfl

theorem countAuth_auth : countAuth [authRequest] = 1 := by decide

theorem countAuth_getreq (r : String) :
    countAuth [{ method := "GET", resource := r }] = 0 := by
  simp [countAuth, List.countP_cons, authRequest]

theorem countAuth_cons_auth (tr : List Request) :
    countAuth (authRequest :: tr) = countAuth tr + 1 := by
  simp [countAuth, List.countP_cons]

end Phpipam

namespace Phpipam

/-! ### Shared lemmas about the authentication step -/

theorem getToken_not_window (w : World)
    (hw : ¬(400 ≤ w.authResp.status ∧ w.authResp.status < 600)) :
    getToken w = extractToken w.authResp.body := by
  by_cases h200 : w.authResp.status = 200 <;>
    simp [getToken, h200, raiseForStatus, hw]

theorem getToken_window (w : World)
    (hw : 400 ≤ w.authResp.status ∧ w.authResp.status < 600) :
    getToken w = .error (.httpError w.authResp.status) := by
  have hne : w.authResp.status ≠ 200 := by omega
  simp [getToken, hne, raiseForStatus, hw]

/-! ### Shared concrete fixtures -/

/-- A complete configuration. -/
def cfgC : PhpipamConfig :=
  { url := some "https://ipam.example.com"
    auth := some { user := some "u", password := some "p" }
    verify := none }

/-- Configuration with every field present but holding an empty string. -/
def cfgEmpty : PhpipamConfig :=
  { url := some "", auth := some { user := some "", password := some "" }, verify := none }

/-- A 200 authentication response carrying a token. -/
def authOK : HttpResponse :=
  { status := 200, body := [("data", .obj [("token", .str "tok")])] }

/-- The message-only body a query receives when nothing is found. -/
def msgBody : List (String × JVal) := [("message", .str "No addresses found")]

/-- A world whose authentication succeeds and whose queries find nothing. -/
def wAuthOnly : World :=
  { authResp := authOK
    getResp := fun _ => { status := 200, body := msgBody } }

/-! ### C1 -/

/-- C1: on a success (200) response, query returns the data field value as
is when the body has one; with a message field but no data field it
returns an empty dict without error; with neither field it also returns an
empty dict. -/
theorem C1_query_success_semantics (resp : HttpResponse) (hs : resp.status = 200) :
    (∀ v, jLookupFs resp.body "data" = some v → queryResp resp = .ok v) ∧
    ((∃ m, jLookupFs resp.body "message" = some m) → jLookupFs resp.body "data" = none →
      queryResp resp = .ok (.obj [])) ∧
    (jLookupFs resp.body "message" = none → jLookupFs resp.body "data" = none →
      queryResp resp = .ok (.obj [])) := by
  refine ⟨?_, ?_, ?_⟩
  · intro v hv; simp [queryResp, hs, hv]
  · intro _ hd; simp [queryResp, hs, hd]
  · intro _ hd; simp [queryResp, hs, hd]

/-- C1 witness: the three body shapes at status 200. -/
theorem C1_query_success_semantics_witness :
    queryResp { status := 200, body := [("data", .arr [.num 1])] } = .ok (.arr [.num 1]) ∧
    queryResp { status := 200, body := [("message", .str "x")] } = .ok (.obj []) ∧
    queryResp { status := 200, body := [] } = .ok (.obj []) :=
  ⟨(C1_query_success_semantics _ rfl).1 _ rfl,
   (C1_query_success_semantics _ rfl).2.1 ⟨_, rfl⟩ rfl,
   (C1_query_success_semantics _ rfl).2.2 rfl rfl⟩

/-! ### C4 -/

/-- C4 (amended): query raises the transport error (HTTPError carrying the
underlying status) exactly for status codes 400-599; any other status that
is not 200 is not raised, the body being parsed as on success. -/
theorem C4_query_transport_amended (resp : HttpResponse) :
    (400 ≤ resp.status ∧ resp.status < 600 →
      queryResp resp = .error (.httpError resp.status)) ∧
    (¬(400 ≤ resp.status ∧ resp.status < 600) →
      queryResp resp = .ok ((jLookupFs resp.body "data").getD (.obj []))) := by
  constructor
  · intro hw
    have hne : resp.status ≠ 200 := by omega
    simp [queryResp, hne, raiseForStatus, hw]
  · intro hw
    by_cases h200 : resp.status = 200
    · cases hd : jLookupFs resp.body "data" <;> simp [queryResp, h200, hd]
    · cases hd : jLookupFs resp.body "data" <;>
        simp [queryResp, h200, hd, raiseForStatus, hw]

/-- C4 witness: a 404 raises the transport error, while a 204 (not a
success status either) does not raise. -/
theorem C4_query_transport_amended_witness :
    queryResp { status := 404, body := [] } = .error (.httpError 404) ∧
    queryResp { status := 204, body := [("data", .num 3)] } = .ok (.num 3) := by
  constructor
  · exact (C4_query_transport_amended _).1 (by decide)
  · exact (C4_query_transport_amended { status := 204, body := [("data", .num 3)] }).2 (by decide)

/-- C4 counterexample: a 304 response has no success status, yet the query
does not raise: it returns the data field value. -/
theorem C4_counterexample :
    queryResp { status := 304, body := [("data", .str "x")] } = .ok (.str "x") := rfl

/-! ### C5 -/

/-- C5 (amended): configuration resolution fails with the configuration
error exactly when the url key, the auth block, the user key or the
password key is missing; present but empty values pass resolution, and
construction then proceeds to the authentication request. -/
theorem C5_config_amended (cfg : PhpipamConfig) (w : World) :
    (cfg.url = none → resolveConfig cfg = .error .configurationError) ∧
    (cfg.auth = none → resolveConfig cfg = .error .configurationError) ∧
    (∀ a, cfg.auth = some a → a.user = none →
      resolveConfig cfg = .error .configurationError) ∧
    (∀ a, cfg.auth = some a → a.password = none →
      resolveConfig cfg = .error .configurationError) ∧
    (∀ u a us pw, cfg.url = some u → cfg.auth = some a → a.user = some us →
      a.password = some pw → resolveConfig cfg = .ok (u, us, pw)) ∧
    (∀ u a us pw tok, cfg.url = some u → cfg.auth = some a → a.user = some us →
      a.password = some pw → getToken w = .ok tok →
      (Api.init cfg w).1 = .ok { phpipam_url := u, user := us, password := pw,
                                 api_url := u ++ "/api/lookup/",
                                 verify := (cfg.verify).getD defaultVerify,
                                 token := tok }) := by
  refine ⟨?_, ?_, ?_, ?_, ?_, ?_⟩
  · intro h; simp [resolveConfig, h]
  · intro h; cases hu : cfg.url <;> simp [resolveConfig, hu, h]
  · intro a ha hn; cases hu : cfg.url <;> simp [resolveConfig, hu, ha, hn]
  · intro a ha hn
    cases hu : cfg.url <;> cases hus : a.user <;> simp [resolveConfig, hu, ha, hus, hn]
  · intro u a us pw hu ha hus hpw; simp [resolveConfig, hu, ha, hus, hpw]
  · intro u a us pw tok hu ha hus hpw ht
    simp [Api.init, resolveConfig, hu, ha, hus, hpw, ht]

/-- C5 witness: a fully missing configuration fails, a fully present one
resolves. -/
theorem C5_config_amended_witness :
    resolveConfig { url := none, auth := none, verify := none } = .error .configurationError ∧
    resolveConfig cfgC = .ok ("https://ipam.example.com", "u", "p") :=
  ⟨(C5_config_amended { url := none, auth := none, verify := none } wAuthOnly).1 rfl,
   (C5_config_amended cfgC wAuthOnly).2.2.2.2.1 _ _ _ _ rfl rfl rfl rfl⟩

/-- C5 counterexample: present but empty url and credentials pass
configuration resolution, and construction completes without the
configuration error. -/
theorem C5_counterexample :
    resolveConfig cfgEmpty = .ok ("", "", "") ∧
    (Api.init cfgEmpty wAuthOnly).1 =
      .ok { phpipam_url := "", user := "", password := "",
            api_url := "" ++ "/api/lookup/", verify := defaultVerify,
            token := .str "tok" } :=
  ⟨rfl, rfl⟩

/-! ### C6 -/

/-- C6 (amended): with a resolvable configuration, construction fails with
the HTTP error for an authentication status in 400-599, and with a
KeyError when the body lacks a data field or a token field below it; but
for a status outside 400-599 (success or not) with a data.token present,
construction succeeds. -/
theorem C6_auth_amended (cfg : PhpipamConfig) (w : World) (u us pw : String)
    (hc : resolveConfig cfg = .ok (u, us, pw)) :
    (400 ≤ w.authResp.status ∧ w.authResp.status < 600 →
      (Api.init cfg w).1 = .error (.httpError w.authResp.status)) ∧
    (¬(400 ≤ w.authResp.status ∧ w.authResp.status < 600) →
      jLookupFs w.authResp.body "data" = none →
      (Api.init cfg w).1 = .error (.keyError "data")) ∧
    (∀ d, ¬(400 ≤ w.authResp.status ∧ w.authResp.status < 600) →
      jLookupFs w.authResp.body "data" = some (.obj d) →
      jLookupFs d "token" = none →
      (Api.init cfg w).1 = .error (.keyError "token")) ∧
    (∀ tok, ¬(400 ≤ w.authResp.status ∧ w.authResp.status < 600) →
      extractToken w.authResp.body = .ok tok →
      (Api.init cfg w).1 = .ok { phpipam_url := u, user := us, password := pw,
                                 api_url := u ++ "/api/lookup/",
                                 verify := (cfg.verify).getD defaultVerify,
                                 token := tok }) := by
  refine ⟨?_, ?_, ?_, ?_⟩
  · intro hw; simp [Api.init, hc, getToken_window w hw]
  · intro hw hd; simp [Api.init, hc, getToken_not_window w hw, extractToken, hd]
  · intro d hw hd ht
    simp [Api.init, hc, getToken_not_window w hw, extractToken, hd, ht]
  · intro tok hw ht; simp [Api.init, hc, getToken_not_window w hw, ht]

/-- A world whose authentication endpoint answers 403. -/
def wA403 : World :=
  { authResp := { status := 403, body := [] }
    getResp := fun _ => { status := 200, body := msgBody } }

/-- A world whose authentication answers 200 with no data field. -/
def wANoData : World :=
  { authResp := { status := 200, body := msgBody }
    getResp := fun _ => { status := 200, body := msgBody } }

/-- C6 witness: a 403 authentication fails with the HTTP error, a 200
authentication without data fails with the KeyError. -/
theorem C6_auth_amended_witness :
    (Api.init cfgC wA403).1 = .error (.httpError 403) ∧
    (Api.init cfgC wANoData).1 = .error (.keyError "data") :=
  ⟨(C6_auth_amended cfgC wA403 _ _ _ rfl).1 (by decide),
   (C6_auth_amended cfgC wANoData _ _ _ rfl).2.1 (by decide) rfl⟩

/-- A world whose authentication endpoint answers 304 with a valid token. -/
def w304 : World :=
  { authResp := { status := 304, body := [("data", .obj [("token", .str "t")])] }
    getResp := fun _ => { status := 200, body := msgBody } }

/-- C6 counterexample: a 304 authentication response (not a success
status) with a valid data.token lets construction succeed, raising no
authentication error. -/
theorem C6_counterexample :
    (Api.init cfgC w304).1 =
      .ok { phpipam_url := "https://ipam.example.com", user := "u", password := "p",
            api_url := "https://ipam.example.com" ++ "/api/lookup/",
            verify := defaultVerify, token := .str "t" } := rfl

end Phpipam

namespace Phpipam

/-! ### C3: authentication round-trips per operation -/

theorem countAuth_cons_get (r : String) (tr : List Request) :
    countAuth ({ method := "GET", resource := r } :: tr) = countAuth tr := by
  simp [countAuth, List.countP_cons, authRequest]

theorem init_shape (cfg : PhpipamConfig) (w : World) (u us pw : String)
    (hc : resolveConfig cfg = .ok (u, us, pw)) :
    ∃ r, Api.init cfg w = (r, [authRequest]) := by
  cases ht : getToken w with
  | error e => exact ⟨.error e, by simp [Api.init, hc, ht]⟩
  | ok tok =>
    refine ⟨.ok { phpipam_url := u, user := us, password := pw,
                  api_url := u ++ "/api/lookup/",
                  verify := (cfg.verify).getD defaultVerify, token := tok }, ?_⟩
    simp [Api.init, hc, ht]

theorem getLoop_countAuth (api : Api) (w : World) (key : String) (dataL : List JVal)
    (todo : List JVal) : ∀ ret, countAuth (getLoop api w key dataL todo ret).2 = 0 := by
  induction todo with
  | nil => intro ret; rfl
  | cons entry rest ih =>
    intro ret
    simp only [getLoop, Api.query]
    cases hip : jGet entry "ip" JVal.null with
    | error e => exact countAuth_nil
    | ok ipaddr =>
      dsimp only
      cases hh : jGet entry "hostname" JVal.null with
      | error e => exact countAuth_nil
      | ok hostname =>
        dsimp only
        cases hsn : jGet entry "subnetId" JVal.null with
        | error e => exact countAuth_nil
        | ok subnetId =>
          dsimp only
          by_cases hcond : (truthy ipaddr && truthy subnetId && jEq hostname (.str key)) = true
          · rw [if_pos hcond]
            cases hq : queryResp (w.getResp (subnetResource subnetId)) with
            | error e => exact countAuth_getreq _
            | ok subnet =>
              dsimp only
              by_cases hts : truthy subnet = false
              · rw [if_pos hts]
                simp [countAuth_cons_get, ih ret]
              · rw [if_neg hts]
                cases hcal : jGet subnet "calculation" (.obj []) with
                | error e => exact countAuth_getreq _
                | ok calcv =>
                  dsimp only
                  cases hnm : jGet calcv "Subnet netmask" JVal.null with
                  | error e => exact countAuth_getreq _
                  | ok netmask =>
                    dsimp only
                    cases hds : jGet subnet "description" JVal.null with
                    | error e => exact countAuth_getreq _
                    | ok descv =>
                      dsimp only
                      cases hpi : pyIndex dataL entry with
                      | none => exact countAuth_getreq _
                      | some idx =>
                        dsimp only
                        simp [countAuth_cons_get,
                          ih (dictInsert ret (pyStrNat idx)
                            (.obj [("ipv4", ipaddr), ("netmask", netmask),
                                   ("description", descv), ("subnet_id", subnetId)]))]
          · rw [if_neg hcond]
            exact ih ret

theorem get_countAuth (cfg : PhpipamConfig) (w : World) (key : String) (u us pw : String)
    (hc : resolveConfig cfg = .ok (u, us, pw)) : countAuth (get cfg w key).2 = 1 := by
  obtain ⟨r, hini⟩ := init_shape cfg w u us pw hc
  cases r with
  | error e => simp [get, hini, countAuth_auth, countAuth_cons_auth, countAuth_nil]
  | ok api =>
    simp only [get, hini, Api.query]
    cases hq : queryResp (w.getResp (searchResource key)) with
    | error e => simp [countAuth_append, countAuth_auth, countAuth_getreq, countAuth_cons_auth, countAuth_cons_get, countAuth_nil]
    | ok data =>
      by_cases hd : truthy data = false
      · simp [hd, countAuth_append, countAuth_auth, countAuth_getreq, countAuth_cons_auth, countAuth_cons_get, countAuth_nil]
      · simp only [hd, if_false]
        cases hi : jIter data with
        | error e => simp [countAuth_append, countAuth_auth, countAuth_getreq, countAuth_cons_auth, countAuth_cons_get, countAuth_nil]
        | ok entries =>
          cases hgl : getLoop api w key entries entries [] with
          | mk r2 tr2 =>
            have h0 : countAuth tr2 = 0 := by
              have h1 := getLoop_countAuth api w key entries entries []
              rw [hgl] at h1; exact h1
            cases r2 <;>
              simp [hgl, countAuth_append, countAuth_auth, countAuth_getreq,
                    countAuth_cons_auth, countAuth_cons_get, countAuth_nil, h0]

theorem get_tags_countAuth (cfg : PhpipamConfig) (w : World) (u us pw : String)
    (hc : resolveConfig cfg = .ok (u, us, pw)) : countAuth (get_tags cfg w).2 = 1 := by
  obtain ⟨r, hini⟩ := init_shape cfg w u us pw hc
  cases r with
  | error e => simp [get_tags, hini, countAuth_auth, countAuth_cons_auth, countAuth_nil]
  | ok api =>
    simp [get_tags, hini, Api.query, countAuth_append, countAuth_auth, countAuth_getreq, countAuth_cons_auth, countAuth_cons_get, countAuth_nil]

theorem get_tag_id_trace (cfg : PhpipamConfig) (w : World) (tag : String) :
    (get_tag_id cfg w tag).2 = (get_tags cfg w).2 := by
  cases hgt : get_tags cfg w with
  | mk r tr =>
    cases r with
    | error e => simp [get_tag_id, hgt]
    | ok tags => cases hi : jIter tags <;> simp [get_tag_id, hgt, hi]

theorem get_tag_id_countAuth (cfg : PhpipamConfig) (w : World) (tag : String)
    (u us pw : String) (hc : resolveConfig cfg = .ok (u, us, pw)) :
    countAuth (get_tag_id cfg w tag).2 = 1 := by
  rw [get_tag_id_trace]; exact get_tags_countAuth cfg w u us pw hc

/-- Whether get_addrs_by_tag gets past its tag_id guard: the tag lookup
succeeded and yielded a truthy tag_id. -/
def tagResolved (cfg : PhpipamConfig) (w : World) (tag : String) : Bool :=
  match (get_tag_id cfg w tag).1 with
  | .ok d =>
    match jGet d "tag_id" .null with
    | .ok t => truthy t
    | .error _ => false
  | .error _ => false

theorem gabt_countAuth (cfg : PhpipamConfig) (w : World) (tag : String) (ex : Bool)
    (u us pw : String) (hc : resolveConfig cfg = .ok (u, us, pw)) :
    countAuth (get_addrs_by_tag cfg w tag ex).2 =
      (if tagResolved cfg w tag then 2 else 1) := by
  cases hti : get_tag_id cfg w tag with
  | mk r tr0 =>
    have htr0 : countAuth tr0 = 1 := by
      have h1 := get_tag_id_countAuth cfg w tag u us pw hc
      rw [hti] at h1; exact h1
    have hres : (get_tag_id cfg w tag).1 = r := by rw [hti]
    cases r with
    | error e => simp [get_addrs_by_tag, hti, tagResolved, hres, htr0]
    | ok d =>
      cases hjg : jGet d "tag_id" JVal.null with
      | error e => simp [get_addrs_by_tag, hti, tagResolved, hres, hjg, htr0]
      | ok tag_id =>
        by_cases htt : truthy tag_id = false
        · simp [get_addrs_by_tag, hti, tagResolved, hres, hjg, htt, htr0]
        · have htt2 : truthy tag_id = true := by
            revert htt; cases truthy tag_id <;> simp
          have hresolved : tagResolved cfg w tag = true := by
            simp [tagResolved, hres, hjg, htt2]
          obtain ⟨r1, hini⟩ := init_shape cfg w u us pw hc
          cases r1 with
          | error e =>
            simp [get_addrs_by_tag, hti, hjg, htt2, hini, hresolved,
                  countAuth_append, htr0, countAuth_cons_auth, countAuth_nil]
          | ok api =>
            simp only [get_addrs_by_tag, hti, hjg, htt2, hini, Api.query]
            cases hq : queryResp (w.getResp (tagAddrsResource tag_id)) with
            | error e =>
              simp [hresolved, countAuth_append, htr0, countAuth_cons_auth,
                    countAuth_cons_get, countAuth_nil]
            | ok data =>
              cases hi : jIter data with
              | error e =>
                simp [hi, hresolved, countAuth_append, htr0, countAuth_cons_auth,
                      countAuth_cons_get, countAuth_nil]
              | ok entries =>
                cases hal : addrLoop ex entries [] [] with
                | error e =>
                  simp [hi, hal, hresolved, countAuth_append, htr0, countAuth_cons_auth,
                        countAuth_cons_get, countAuth_nil]
                | ok p =>
                  cases p with
                  | mk details ips =>
                    simp [hi, hal, hresolved, countAuth_append, htr0, countAuth_cons_auth,
                          countAuth_cons_get, countAuth_nil]

/-- C3 (amended): with a resolvable configuration, get, get_tags and
get_tag_id each construct exactly one Api and perform exactly one
authentication POST; get_addrs_by_tag performs one when the tag does not
resolve to a truthy tag_id and two when it does (one inside its nested
get_tag_id call and one of its own). -/
theorem C3_auth_roundtrips_amended (cfg : PhpipamConfig) (w : World)
    (key tag : String) (ex : Bool) (u us pw : String)
    (hc : resolveConfig cfg = .ok (u, us, pw)) :
    countAuth (get cfg w key).2 = 1 ∧
    countAuth (get_tags cfg w).2 = 1 ∧
    countAuth (get_tag_id cfg w tag).2 = 1 ∧
    countAuth (get_addrs_by_tag cfg w tag ex).2 =
      (if tagResolved cfg w tag then 2 else 1) :=
  ⟨get_countAuth cfg w key u us pw hc,
   get_tags_countAuth cfg w u us pw hc,
   get_tag_id_countAuth cfg w tag u us pw hc,
   gabt_countAuth cfg w tag ex u us pw hc⟩

/-- The tag listing the fixture server returns. -/
def tagsBody : List (String × JVal) :=
  [("data", .arr [.obj [("type", .str "Online"), ("id", .str "1")],
                  .obj [("type", .str "Used"), ("id", .str "2")]])]

/-- The tagged-address listing the fixture server returns. -/
def addrsBody : List (String × JVal) :=
  [("data", .arr [.obj [("ip", .str "10.0.0.1"), ("hostname", .str "gw"),
                        ("is_gateway", .num 1)],
                  .obj [("ip", .str "10.0.0.2"), ("hostname", .str "a"),
                        ("description", .str "x")],
                  .obj [("ip", .str "10.0.0.2"), ("hostname", .str "b")]])]

/-- A world with tags Online and Used and three addresses tagged Used. -/
def wTagged : World :=
  { authResp := authOK
    getResp := fun r =>
      if r = "addresses/tags/" then { status := 200, body := tagsBody }
      else if r = tagAddrsResource (.str "2") then { status := 200, body := addrsBody }
      else { status := 200, body := msgBody } }

/-- C3 counterexample: a single get_addrs_by_tag invocation on a
resolvable tag performs two authentication POSTs, not one. -/
theorem C3_counterexample :
    countAuth (get_addrs_by_tag cfgC wTagged "Used" false).2 = 2 := rfl

/-- C3 witness: the amended counts at a concrete configuration and
world. -/
theorem C3_auth_roundtrips_amended_witness :
    countAuth (get cfgC wTagged "h").2 = 1 ∧
    countAuth (get_tags cfgC wTagged).2 = 1 ∧
    countAuth (get_tag_id cfgC wTagged "Used").2 = 1 ∧
    countAuth (get_addrs_by_tag cfgC wTagged "Used" true).2 =
      (if tagResolved cfgC wTagged "Used" then 2 else 1) :=
  C3_auth_roundtrips_amended cfgC wTagged "h" "Used" true _ _ _ rfl

end Phpipam

namespace Phpipam

/-! ### C10: a matching tag entry without an id field -/

/-- Entries whose type field does not match are skipped by the tag scan. -/
theorem tagLoop_skip (tag : String) (rest : List JVal) :
    ∀ pre : List JVal,
      pre.all (fun e => match e with
        | .obj gs => !jEq ((jLookupFs gs "type").getD .null) (.str tag)
        | _ => false) = true →
      tagLoop tag (pre ++ rest) = tagLoop tag rest := by
  intro pre
  induction pre with
  | nil => intro _; rfl
  | cons e pre ih =>
    intro hall
    rw [List.all_cons, Bool.and_eq_true] at hall
    obtain ⟨he, hrest⟩ := hall
    cases e with
    | obj gs =>
      simp only [Bool.not_eq_true'] at he
      simp only [List.cons_append, tagLoop, jGet]
      rw [if_neg (by simp [he])]
      exact ih hrest
    | null => simp at he
    | bool b => simp at he
    | num n => simp at he
    | str s => simp at he
    | arr xs => simp at he

theorem init_ok (cfg : PhpipamConfig) (w : World) (u us pw : String) (tok : JVal)
    (hc : resolveConfig cfg = .ok (u, us, pw)) (ha : getToken w = .ok tok) :
    Api.init cfg w =
      (.ok { phpipam_url := u, user := us, password := pw,
             api_url := u ++ "/api/lookup/",
             verify := (cfg.verify).getD defaultVerify, token := tok },
       [authRequest]) := by
  simp [Api.init, hc, ha]

/-- C10: when the first tag entry whose type equals the requested tag has
no id field, get_tag_id returns the non-empty mapping with tag_id None,
and get_addrs_by_tag then treats the None tag_id as unresolved: it
returns an empty mapping and issues no request beyond those of its
get_tag_id call. -/
theorem C10_missing_id_field (cfg : PhpipamConfig) (w : World) (tag : String)
    (ex : Bool) (u us pw : String) (tok : JVal)
    (pre post : List JVal) (fs : List (String × JVal))
    (hc : resolveConfig cfg = .ok (u, us, pw))
    (ha : getToken w = .ok tok)
    (hTags : queryResp (w.getResp "addresses/tags/") = .ok (.arr (pre ++ .obj fs :: post)))
    (hpre : pre.all (fun e => match e with
      | .obj gs => !jEq ((jLookupFs gs "type").getD .null) (.str tag)
      | _ => false) = true)
    (hmatch : jEq ((jLookupFs fs "type").getD .null) (.str tag) = true)
    (hid : jLookupFs fs "id" = none) :
    (get_tag_id cfg w tag).1 = .ok (.obj [("tag", .str tag), ("tag_id", .null)]) ∧
    truthy (.obj [("tag", .str tag), ("tag_id", .null)]) = true ∧
    get_addrs_by_tag cfg w tag ex = (.ok .empty, (get_tag_id cfg w tag).2) := by
  have htags : get_tags cfg w =
      (.ok (.arr (pre ++ .obj fs :: post)),
       [authRequest, { method := "GET", resource := "addresses/tags/" }]) := by
    simp [get_tags, init_ok cfg w u us pw tok hc ha, Api.query, hTags]
  have hloop : tagLoop tag (pre ++ .obj fs :: post) =
      .ok (.obj [("tag", .str tag), ("tag_id", .null)]) := by
    rw [tagLoop_skip tag (.obj fs :: post) pre hpre]
    simp only [tagLoop, jGet]
    rw [if_pos (by simp [hmatch])]
    simp [hid]
  have hti : get_tag_id cfg w tag =
      (.ok (.obj [("tag", .str tag), ("tag_id", .null)]),
       [authRequest, { method := "GET", resource := "addresses/tags/" }]) := by
    simp [get_tag_id, htags, jIter, hloop]
  refine ⟨by rw [hti], rfl, ?_⟩
  simp [get_addrs_by_tag, hti, jGet, jLookupFs, truthy]

/-- A tag listing whose Offline entry has no id field. -/
def tagsNoIdBody : List (String × JVal) :=
  [("data", .arr [.obj [("type", .str "Online"), ("id", .str "1")],
                  .obj [("type", .str "Offline")]])]

/-- A world serving the id-less Offline tag entry. -/
def wNoId : World :=
  { authResp := authOK
    getResp := fun r =>
      if r = "addresses/tags/" then { status := 200, body := tagsNoIdBody }
      else { status := 200, body := msgBody } }

/-- C10 witness: the id-less Offline tag at a concrete world. -/
theorem C10_missing_id_field_witness :
    (get_tag_id cfgC wNoId "Offline").1 =
      .ok (.obj [("tag", .str "Offline"), ("tag_id", .null)]) ∧
    truthy (.obj [("tag", .str "Offline"), ("tag_id", .null)]) = true ∧
    get_addrs_by_tag cfgC wNoId "Offline" false =
      (.ok .empty, (get_tag_id cfgC wNoId "Offline").2) :=
  C10_missing_id_field cfgC wNoId "Offline" false _ _ _ _
    [.obj [("type", .str "Online"), ("id", .str "1")]] [] [("type", .str "Offline")]
    rfl rfl rfl (by decide) (by decide) rfl

end Phpipam

namespace Phpipam

/-! ### The record filter of get and its step lemmas -/

/-- The admission test of the get loop on a record: truthy ip, truthy
subnetId and hostname equal (by Python ==) to the searched key. -/
def entryMatches (key : String) (fs : List (String × JVal)) : Bool :=
  truthy ((jLookupFs fs "ip").getD .null) && truthy ((jLookupFs fs "subnetId").getD .null) &&
    jEq ((jLookupFs fs "hostname").getD .null) (.str key)

/-- The netmask value get reads from a subnet record:
subnet.get(calculation, empty).get(Subnet netmask), for a subnet whose
calculation field is absent or a dictionary. -/
def netmaskVal (sfs : List (String × JVal)) : JVal :=
  match jLookupFs sfs "calculation" with
  | some (.obj cfs) => (jLookupFs cfs "Subnet netmask").getD .null
  | _ => .null

theorem getLoop_skip (api : Api) (w : World) (key : String) (dataL : List JVal)
    (fs : List (String × JVal)) (rest : List JVal) (ret : List (String × JVal))
    (hm : entryMatches key fs = false) :
    getLoop api w key dataL (.obj fs :: rest) ret = getLoop api w key dataL rest ret := by
  have hm2 : (truthy ((jLookupFs fs "ip").getD .null) &&
      truthy ((jLookupFs fs "subnetId").getD .null) &&
      jEq ((jLookupFs fs "hostname").getD .null) (.str key)) = false := hm
  simp only [getLoop, jGet]
  rw [if_neg (by simp [hm2])]

theorem getLoop_drop_empty_subnet (api : Api) (w : World) (key : String)
    (dataL : List JVal) (fs : List (String × JVal)) (rest : List JVal)
    (ret : List (String × JVal)) (s : JVal)
    (hm : entryMatches key fs = true)
    (hq : queryResp (w.getResp (subnetResource ((jLookupFs fs "subnetId").getD .null))) = .ok s)
    (hts : truthy s = false) :
    (getLoop api w key dataL (.obj fs :: rest) ret).1 =
      (getLoop api w key dataL rest ret).1 := by
  have hm2 : (truthy ((jLookupFs fs "ip").getD .null) &&
      truthy ((jLookupFs fs "subnetId").getD .null) &&
      jEq ((jLookupFs fs "hostname").getD .null) (.str key)) = true := hm
  simp only [getLoop, jGet, Api.query]
  rw [if_pos hm2, hq]
  dsimp only
  rw [if_pos hts]

theorem getLoop_all_filtered (api : Api) (w : World) (key : String) (dataL : List JVal) :
    ∀ todo ret, todo.all (fun e => match e with
      | .obj fs => !entryMatches key fs
      | _ => false) = true →
      getLoop api w key dataL todo ret = (.ok ret, []) := by
  intro todo
  induction todo with
  | nil => intro ret _; rfl
  | cons e rest ih =>
    intro ret hall
    rw [List.all_cons, Bool.and_eq_true] at hall
    obtain ⟨he, hrest⟩ := hall
    cases e with
    | obj fs =>
      rw [getLoop_skip api w key dataL fs rest ret (by simpa using he)]
      exact ih ret hrest
    | null => simp at he
    | bool b => simp at he
    | num n => simp at he
    | str s => simp at he
    | arr xs => simp at he

/-! ### C7 -/

/-- C7: a record contributes to get only if its hostname equals the key
and it carries an ip and a subnetId (a record violating any of these is
skipped); a matching record whose subnet query returns empty is skipped
entirely; an absent hostname, a fully filtered result, an absent tag and
an empty tag membership all yield empty structures and never an
exception. -/
theorem C7_not_found_semantics (cfg : PhpipamConfig) (w : World) (key tag : String)
    (u us pw : String) (tok : JVal)
    (hc : resolveConfig cfg = .ok (u, us, pw)) (ha : getToken w = .ok tok) :
    (∀ api dataL fs rest ret,
      (jEq ((jLookupFs fs "hostname").getD .null) (.str key) = false ∨
       jLookupFs fs "ip" = none ∨ jLookupFs fs "subnetId" = none) →
      getLoop api w key dataL (.obj fs :: rest) ret = getLoop api w key dataL rest ret) ∧
    (∀ api dataL fs rest ret s, entryMatches key fs = true →
      queryResp (w.getResp (subnetResource ((jLookupFs fs "subnetId").getD .null))) = .ok s →
      truthy s = false →
      (getLoop api w key dataL (.obj fs :: rest) ret).1 =
        (getLoop api w key dataL rest ret).1) ∧
    (∀ d, queryResp (w.getResp (searchResource key)) = .ok d → truthy d = false →
      (get cfg w key).1 = .ok (.obj [])) ∧
    (∀ dataL, queryResp (w.getResp (searchResource key)) = .ok (.arr dataL) →
      dataL.all (fun e => match e with
        | .obj fs => !entryMatches key fs
        | _ => false) = true →
      (get cfg w key).1 = .ok (.obj [])) ∧
    (∀ tentries, queryResp (w.getResp "addresses/tags/") = .ok (.arr tentries) →
      tentries.all (fun e => match e with
        | .obj gs => !jEq ((jLookupFs gs "type").getD .null) (.str tag)
        | _ => false) = true →
      (get_tag_id cfg w tag).1 = .ok (.obj [])) ∧
    (∀ ex tid tr0,
      get_tag_id cfg w tag = (.ok (.obj [("tag", .str tag), ("tag_id", .str tid)]), tr0) →
      tid ≠ "" →
      queryResp (w.getResp (tagAddrsResource (.str tid))) = .ok (.obj []) →
      (get_addrs_by_tag cfg w tag ex).1 = .ok (.full [] [] tag)) := by
  have hini := init_ok cfg w u us pw tok hc ha
  refine ⟨?_, ?_, ?_, ?_, ?_, ?_⟩
  · intro api dataL fs rest ret h
    apply getLoop_skip
    rcases h with h | h | h <;> simp [entryMatches, h, truthy]
  · intro api dataL fs rest ret s hm hq hts
    exact getLoop_drop_empty_subnet api w key dataL fs rest ret s hm hq hts
  · intro d hq htd
    simp [get, hini, Api.query, hq, htd]
  · intro dataL hq hall
    by_cases hnil : dataL = []
    · subst hnil; simp [get, hini, Api.query, hq, truthy]
    · have htd : truthy (.arr dataL) = true := by
        cases dataL with
        | nil => exact absurd rfl hnil
        | cons a l => rfl
      have hloop := getLoop_all_filtered
        { phpipam_url := u, user := us, password := pw, api_url := u ++ "/api/lookup/",
          verify := cfg.verify.getD defaultVerify, token := tok } w key dataL dataL [] hall
      simp [get, hini, Api.query, hq, htd, jIter, hloop]
  · intro tentries hq hall
    have htags : get_tags cfg w =
        (.ok (.arr tentries),
         [authRequest, { method := "GET", resource := "addresses/tags/" }]) := by
      simp [get_tags, hini, Api.query, hq]
    have hloop : tagLoop tag tentries = .ok (.obj []) := by
      have h0 := tagLoop_skip tag [] tentries hall
      rw [List.append_nil] at h0
      rw [h0]; rfl
    simp [get_tag_id, htags, jIter, hloop]
  · intro ex tid tr0 hti htid haddr
    have htt : truthy (.str tid) = true := by simp [truthy, htid]
    simp [get_addrs_by_tag, hti, jGet, jLookupFs, htt, hini, Api.query, pyStr,
          haddr, jIter, addrLoop]

end Phpipam

namespace Phpipam

/-- A concrete constructed session. -/
def apiC : Api :=
  { phpipam_url := "https://ipam.example.com", user := "u", password := "p",
    api_url := "https://ipam.example.com" ++ "/api/lookup/",
    verify := defaultVerify, token := .str "tok" }

/-- A world where the hostname search finds nothing and every subnet
query answers with a message body. -/
def wNotFound : World :=
  { authResp := authOK
    getResp := fun r =>
      if r = searchResource "h" then { status := 200, body := [("data", .arr [])] }
      else if r = "addresses/tags/" then { status := 200, body := tagsBody }
      else { status := 200, body := msgBody } }

/-- A world where the Used tag resolves but its membership is empty. -/
def wEmptyMembers : World :=
  { authResp := authOK
    getResp := fun r =>
      if r = "addresses/tags/" then { status := 200, body := tagsBody }
      else { status := 200, body := msgBody } }

/-- C7 witness: the not-found scenarios at concrete worlds. -/
theorem C7_not_found_semantics_witness :
    (getLoop apiC wNotFound "h" [] [.obj [("hostname", .str "x")]] [] =
      getLoop apiC wNotFound "h" [] [] []) ∧
    ((getLoop apiC wNotFound "h" []
        [.obj [("ip", .str "10.0.0.7"), ("hostname", .str "h"), ("subnetId", .str "5")]] []).1 =
      (getLoop apiC wNotFound "h" [] [] []).1) ∧
    (get cfgC wNotFound "h").1 = .ok (.obj []) ∧
    (get_tag_id cfgC wNotFound "Missing").1 = .ok (.obj []) ∧
    (get_addrs_by_tag cfgC wEmptyMembers "Used" true).1 = .ok (.full [] [] "Used") := by
  have h1 := C7_not_found_semantics cfgC wNotFound "h" "Missing" _ _ _ _ rfl rfl
  have h2 := C7_not_found_semantics cfgC wEmptyMembers "h" "Used" _ _ _ _ rfl rfl
  refine ⟨?_, ?_, ?_, ?_, ?_⟩
  · exact h1.1 apiC [] [("hostname", .str "x")] [] [] (Or.inl (by decide))
  · exact h1.2.1 apiC [] [("ip", .str "10.0.0.7"), ("hostname", .str "h"), ("subnetId", .str "5")]
      [] [] (.obj []) (by decide) rfl rfl
  · exact h1.2.2.1 (.arr []) rfl rfl
  · exact h1.2.2.2.2.1
      [.obj [("type", .str "Online"), ("id", .str "1")],
       .obj [("type", .str "Used"), ("id", .str "2")]] rfl (by decide)
  · exact h2.2.2.2.2.2 true "2"
      [authRequest, { method := "GET", resource := "addresses/tags/" }] rfl
      (by decide) rfl

end Phpipam

namespace Phpipam

/-! ### C9 -/

/-- A matching record with a non-empty object subnet response is written
into ret at the key given by data.index, with the netmask and description
read out of the subnet record (None on absence). -/
theorem getLoop_insert (api : Api) (w : World) (key : String)
    (dataL : List JVal) (fs sfs : List (String × JVal)) (rest : List JVal)
    (ret : List (String × JVal)) (idx : Nat)
    (hm : entryMatches key fs = true)
    (hq : queryResp (w.getResp (subnetResource ((jLookupFs fs "subnetId").getD .null))) =
      .ok (.obj sfs))
    (hts : truthy (.obj sfs) = true)
    (hcalc : jLookupFs sfs "calculation" = none ∨
      ∃ cfs, jLookupFs sfs "calculation" = some (.obj cfs))
    (hpi : pyIndex dataL (.obj fs) = some idx) :
    (getLoop api w key dataL (.obj fs :: rest) ret).1 =
      (getLoop api w key dataL rest
        (dictInsert ret (pyStrNat idx)
          (.obj [("ipv4", (jLookupFs fs "ip").getD .null),
                 ("netmask", netmaskVal sfs),
                 ("description", (jLookupFs sfs "description").getD .null),
                 ("subnet_id", (jLookupFs fs "subnetId").getD .null)]))).1 := by
  have hm2 : (truthy ((jLookupFs fs "ip").getD .null) &&
      truthy ((jLookupFs fs "subnetId").getD .null) &&
      jEq ((jLookupFs fs "hostname").getD .null) (.str key)) = true := hm
  simp only [getLoop, jGet, Api.query]
  rw [if_pos hm2, hq]
  dsimp only
  rw [if_neg (by simp [hts])]
  rcases hcalc with hnone | ⟨cfs, hsome⟩
  · rw [hnone]
    dsimp only [Option.getD]
    rw [hpi]
    simp [netmaskVal, hnone, jLookupFs]
  · rw [hsome]
    dsimp only [Option.getD]
    rw [hpi]
    simp only [netmaskVal, hsome]
    rfl

/-- C9: a matching record whose subnet response is non-empty is still
included even when the calculation structure, the Subnet netmask key
inside it, or the description field is missing: the record is inserted
with the missing netmask and/or description set to None instead of being
skipped. -/
theorem C9_partial_subnet_included (api : Api) (w : World) (key : String)
    (dataL : List JVal) (fs sfs : List (String × JVal)) (rest : List JVal)
    (ret : List (String × JVal)) (idx : Nat)
    (hm : entryMatches key fs = true)
    (hq : queryResp (w.getResp (subnetResource ((jLookupFs fs "subnetId").getD .null))) =
      .ok (.obj sfs))
    (hts : truthy (.obj sfs) = true)
    (hcalc : jLookupFs sfs "calculation" = none ∨
      ∃ cfs, jLookupFs sfs "calculation" = some (.obj cfs))
    (hpi : pyIndex dataL (.obj fs) = some idx) :
    (getLoop api w key dataL (.obj fs :: rest) ret).1 =
      (getLoop api w key dataL rest
        (dictInsert ret (pyStrNat idx)
          (.obj [("ipv4", (jLookupFs fs "ip").getD .null),
                 ("netmask", netmaskVal sfs),
                 ("description", (jLookupFs sfs "description").getD .null),
                 ("subnet_id", (jLookupFs fs "subnetId").getD .null)]))).1 ∧
    (jLookupFs sfs "calculation" = none → netmaskVal sfs = .null) ∧
    (∀ cfs, jLookupFs sfs "calculation" = some (.obj cfs) →
      jLookupFs cfs "Subnet netmask" = none → netmaskVal sfs = .null) ∧
    (jLookupFs sfs "description" = none →
      (jLookupFs sfs "description").getD .null = .null) := by
  refine ⟨getLoop_insert api w key dataL fs sfs rest ret idx hm hq hts hcalc hpi, ?_, ?_, ?_⟩
  · intro h; simp [netmaskVal, h]
  · intro cfs h hnm; simp [netmaskVal, h, hnm]
  · intro h; simp [h]

end Phpipam

namespace Phpipam

/-- A matching search record for hostname h on subnet 5. -/
def fsH : List (String × JVal) :=
  [("ip", .str "10.0.0.7"), ("hostname", .str "h"), ("subnetId", .str "5")]

/-- A subnet record that is non-empty but has neither a calculation
structure nor a description. -/
def sfsBare : List (String × JVal) := [("id", .str "5")]

/-- A world whose subnet detail is non-empty but bare. -/
def wBareSubnet : World :=
  { authResp := authOK
    getResp := fun r =>
      if r = searchResource "h" then { status := 200, body := [("data", .arr [.obj fsH])] }
      else if r = "subnets/5" then { status := 200, body := [("data", .obj sfsBare)] }
      else { status := 200, body := msgBody } }

/-- C9 witness: the bare subnet record is still included, with netmask
and description None. -/
theorem C9_partial_subnet_included_witness :
    ((getLoop apiC wBareSubnet "h" [.obj fsH] [.obj fsH] []).1 =
      (getLoop apiC wBareSubnet "h" [.obj fsH] []
        (dictInsert [] (pyStrNat 0)
          (.obj [("ipv4", (jLookupFs fsH "ip").getD .null),
                 ("netmask", netmaskVal sfsBare),
                 ("description", (jLookupFs sfsBare "description").getD .null),
                 ("subnet_id", (jLookupFs fsH "subnetId").getD .null)]))).1) ∧
    netmaskVal sfsBare = .null ∧
    (jLookupFs sfsBare "description").getD .null = .null := by
  have h := C9_partial_subnet_included apiC wBareSubnet "h" [.obj fsH] fsH sfsBare [] [] 0
    (by decide) rfl rfl (Or.inl rfl) (by decide)
  exact ⟨h.1, h.2.1 rfl, h.2.2.2 rfl⟩

end Phpipam

namespace Phpipam

/-! ### C8: filter policy and output shape of get_addrs_by_tag -/

/-- Whether a value is a Python dictionary. -/
def jIsObj : JVal → Bool
  | .obj _ => true
  | _ => false

/-- The filter policy in the words of the specification: with
excludeGateway unset every entry is included; set, an entry is included
exactly when it is non-empty and its is_gateway field is falsy or
absent. -/
def keptSpec (ex : Bool) (fs : List (String × JVal)) : Bool :=
  !ex || (!fs.isEmpty && !truthy ((jLookupFs fs "is_gateway").getD .null))

/-- The field lists of the entries surviving the filter, in order. -/
def keptFs (ex : Bool) (entries : List JVal) : List (List (String × JVal)) :=
  entries.filterMap (fun e => match e with
    | .obj fs => if keptSpec ex fs then some fs else none
    | _ => none)

/-- The ip value of an entry. -/
def ipOf (fs : List (String × JVal)) : JVal := (jLookupFs fs "ip").getD .null

/-- The details value built for an entry. -/
def detailRecord (fs : List (String × JVal)) : JVal :=
  .obj [("description", (jLookupFs fs "description").getD .null),
        ("hostname", (jLookupFs fs "hostname").getD .null),
        ("is_gateway", (jLookupFs fs "is_gateway").getD .null)]

/-- One details write. -/
def insDetail (d : List (JVal × JVal)) (fs : List (String × JVal)) : List (JVal × JVal) :=
  dictInsertJ d (ipOf fs) (detailRecord fs)

/-- The last surviving entry whose ip equals the given string. -/
def lastMatch (s : String) : List (List (String × JVal)) → Option (List (String × JVal))
  | [] => none
  | fs :: rest =>
    match lastMatch s rest with
    | some g => some g
    | none => if jEq (ipOf fs) (.str s) then some fs else none

theorem jEq_str (a b : String) : jEq (.str a) (.str b) = (a == b) := rfl

theorem valid_eq_kept (ex : Bool) (fs : List (String × JVal)) :
    isValidEntry ex fs = keptSpec ex fs := by
  cases ex with
  | false => simp [isValidEntry, keptSpec]
  | true => cases fs <;> simp [isValidEntry, keptSpec, truthy]

theorem addrLoop_spec (ex : Bool) :
    ∀ entries details ips, entries.all jIsObj = true →
      addrLoop ex entries details ips =
        .ok ((keptFs ex entries).foldl insDetail details,
             ips ++ (keptFs ex entries).map ipOf) := by
  intro entries
  induction entries with
  | nil => intro details ips _; simp [addrLoop, keptFs]
  | cons e rest ih =>
    intro details ips hall
    rw [List.all_cons, Bool.and_eq_true] at hall
    obtain ⟨he, hrest⟩ := hall
    cases e with
    | obj fs =>
      simp only [addrLoop]
      by_cases hk : keptSpec ex fs = true
      · rw [if_pos (by rw [valid_eq_kept]; exact hk)]
        rw [ih _ _ hrest]
        simp [keptFs, List.filterMap_cons, hk, insDetail, ipOf, detailRecord]
      · rw [if_neg (by rw [valid_eq_kept]; exact hk)]
        rw [ih _ _ hrest]
        simp [keptFs, List.filterMap_cons, hk]
    | null => simp [jIsObj] at he
    | bool b => simp [jIsObj] at he
    | num n => simp [jIsObj] at he
    | str s => simp [jIsObj] at he
    | arr xs => simp [jIsObj] at he

end Phpipam

namespace Phpipam

theorem jLookupJ_insert_str (t s : String) (v : JVal) :
    ∀ d : List (JVal × JVal), (∀ p ∈ d, ∃ t0 : String, p.1 = .str t0) →
      jLookupJ (dictInsertJ d (.str t) v) (.str s) =
        if t = s then some v else jLookupJ d (.str s) := by
  intro d
  induction d with
  | nil =>
    intro _
    by_cases h : t = s <;> simp [dictInsertJ, jLookupJ, jEq_str, h]
  | cons p rest ih =>
    intro hd
    obtain ⟨t0, hp⟩ := hd p (List.mem_cons_self p rest)
    have hrest : ∀ q ∈ rest, ∃ t1 : String, q.1 = .str t1 :=
      fun q hq => hd q (List.mem_cons_of_mem p hq)
    cases p with
    | mk k0 v0 =>
      simp only at hp
      subst hp
      by_cases h1 : t0 = t
      · subst h1
        simp only [dictInsertJ, jEq_str]
        rw [if_pos (by simp)]
        by_cases h2 : t0 = s
        · subst h2; simp [jLookupJ, jEq_str]
        · simp [jLookupJ, jEq_str, h2]
      · simp only [dictInsertJ, jEq_str]
        rw [if_neg (by simp [h1])]
        by_cases h2 : t0 = s
        · subst h2
          have hts : ¬(t = t0) := fun h => h1 h.symm
          simp [jLookupJ, jEq_str, hts]
        · simp [jLookupJ, jEq_str, h2, ih hrest]

theorem dictInsertJ_keys_str (t : String) (v : JVal) :
    ∀ d : List (JVal × JVal), (∀ p ∈ d, ∃ t0 : String, p.1 = .str t0) →
      ∀ p ∈ dictInsertJ d (.str t) v, ∃ t0 : String, p.1 = .str t0 := by
  intro d
  induction d with
  | nil =>
    intro _ p hp
    simp [dictInsertJ] at hp
    subst hp
    exact ⟨t, rfl⟩
  | cons q rest ih =>
    intro hd p hp
    have hq := hd q (List.mem_cons_self q rest)
    have hrest : ∀ r ∈ rest, ∃ t1 : String, r.1 = .str t1 :=
      fun r hr => hd r (List.mem_cons_of_mem q hr)
    simp only [dictInsertJ] at hp
    by_cases hj : jEq q.1 (.str t) = true
    · rw [if_pos hj] at hp
      rcases List.mem_cons.mp hp with h | h
      · subst h; exact hq
      · exact hrest p h
    · rw [if_neg hj] at hp
      rcases List.mem_cons.mp hp with h | h
      · subst h; exact hq
      · exact ih hrest p h

theorem foldl_insert_lookup (s : String) :
    ∀ (kept : List (List (String × JVal))) (d : List (JVal × JVal)),
      (∀ fs ∈ kept, ∃ t : String, jLookupFs fs "ip" = some (.str t)) →
      (∀ p ∈ d, ∃ t0 : String, p.1 = .str t0) →
      jLookupJ (kept.foldl insDetail d) (.str s) =
        (match lastMatch s kept with
         | some g => some (detailRecord g)
         | none => jLookupJ d (.str s)) := by
  intro kept
  induction kept with
  | nil => intro d _ _; simp [lastMatch]
  | cons fs rest ih =>
    intro d hstr hd
    obtain ⟨t, ht⟩ := hstr fs (List.mem_cons_self fs rest)
    have hip : ipOf fs = .str t := by simp [ipOf, ht]
    have hstr2 : ∀ g ∈ rest, ∃ t1 : String, jLookupFs g "ip" = some (.str t1) :=
      fun g hg => hstr g (List.mem_cons_of_mem fs hg)
    have hd2 : ∀ p ∈ insDetail d fs, ∃ t0 : String, p.1 = .str t0 := by
      intro p hp
      apply dictInsertJ_keys_str t (detailRecord fs) d hd
      simpa [insDetail, hip] using hp
    rw [List.foldl_cons, ih (insDetail d fs) hstr2 hd2]
    have hlk : jLookupJ (insDetail d fs) (.str s) =
        if t = s then some (detailRecord fs) else jLookupJ d (.str s) := by
      rw [insDetail, hip]
      exact jLookupJ_insert_str t s (detailRecord fs) d hd
    cases hlm : lastMatch s rest with
    | some g => simp [lastMatch, hlm]
    | none =>
      simp only [lastMatch, hlm, hlk, hip, jEq_str]
      by_cases hts : t = s
      · subst hts; simp
      · simp [hts]

end Phpipam

namespace Phpipam

/-- C8: for a resolvable tag, get_addrs_by_tag returns the three-field
result with the details mapping built by successive dict writes over the
surviving entries and the ip list of the same entries in encounter order
(duplicates preserved); the survival filter equals the stated policy
(everything when excludeGateway is unset, else non-empty entries whose
is_gateway is falsy or absent); and a details lookup yields the record of
the last surviving entry carrying that ip (last write wins). -/
theorem C8_addrs_by_tag_shape (cfg : PhpipamConfig) (w : World) (tag : String)
    (ex : Bool) (u us pw : String) (tok : JVal) (tid : String)
    (tr0 : List Request) (entries : List JVal)
    (hc : resolveConfig cfg = .ok (u, us, pw)) (ha : getToken w = .ok tok)
    (hti : get_tag_id cfg w tag =
      (.ok (.obj [("tag", .str tag), ("tag_id", .str tid)]), tr0))
    (htid : tid ≠ "")
    (haddr : queryResp (w.getResp (tagAddrsResource (.str tid))) = .ok (.arr entries))
    (hobj : entries.all jIsObj = true) :
    (get_addrs_by_tag cfg w tag ex).1 =
      .ok (.full ((keptFs ex entries).foldl insDetail [])
                 ((keptFs ex entries).map ipOf) tag) ∧
    (∀ fs, isValidEntry ex fs = keptSpec ex fs) ∧
    ((∀ fs ∈ keptFs ex entries, ∃ t : String, jLookupFs fs "ip" = some (.str t)) →
      ∀ s : String,
        jLookupJ ((keptFs ex entries).foldl insDetail []) (.str s) =
          (lastMatch s (keptFs ex entries)).map detailRecord) := by
  have hini := init_ok cfg w u us pw tok hc ha
  refine ⟨?_, fun fs => valid_eq_kept ex fs, ?_⟩
  · have htt : truthy (.str tid) = true := by simp [truthy, htid]
    have hal := addrLoop_spec ex entries [] [] hobj
    simp [get_addrs_by_tag, hti, jGet, jLookupFs, htt, hini, Api.query, haddr,
          jIter, hal]
  · intro hstr s
    have h := foldl_insert_lookup s (keptFs ex entries) [] hstr
      (by intro p hp; simp at hp)
    rw [h]
    cases lastMatch s (keptFs ex entries) <;> simp [jLookupJ]

/-- The three address entries tagged Used in the fixture world. -/
def tagEntriesC : List JVal :=
  [.obj [("ip", .str "10.0.0.1"), ("hostname", .str "gw"), ("is_gateway", .num 1)],
   .obj [("ip", .str "10.0.0.2"), ("hostname", .str "a"), ("description", .str "x")],
   .obj [("ip", .str "10.0.0.2"), ("hostname", .str "b")]]

/-- C8 witness: the Used tag with excludeGateway at a concrete world (the
gateway entry is dropped, the duplicate ip 10.0.0.2 appears twice in the
sequence, and its details lookup is the record of the last write). -/
theorem C8_addrs_by_tag_shape_witness :
    (get_addrs_by_tag cfgC wTagged "Used" true).1 =
      .ok (.full ((keptFs true tagEntriesC).foldl insDetail [])
                 ((keptFs true tagEntriesC).map ipOf) "Used") ∧
    jLookupJ ((keptFs true tagEntriesC).foldl insDetail []) (.str "10.0.0.2") =
      (lastMatch "10.0.0.2" (keptFs true tagEntriesC)).map detailRecord := by
  have h := C8_addrs_by_tag_shape cfgC wTagged "Used" true _ _ _ _ "2" _ tagEntriesC
    rfl rfl rfl (by decide) rfl (by decide)
  refine ⟨h.1, h.2.2 ?_ "10.0.0.2"⟩
  intro fs hfs
  have hk : keptFs true tagEntriesC =
      [[("ip", .str "10.0.0.2"), ("hostname", .str "a"), ("description", .str "x")],
       [("ip", .str "10.0.0.2"), ("hostname", .str "b")]] := rfl
  rw [hk] at hfs
  simp only [List.mem_cons, List.not_mem_nil, or_false] at hfs
  rcases hfs with h1 | h1
  · subst h1; exact ⟨"10.0.0.2", rfl⟩
  · subst h1; exact ⟨"10.0.0.2", rfl⟩

end Phpipam

namespace Phpipam

/-! ### C2: the keying of the hostname lookup result -/

/-- Specification view of one search record: the output entry it
contributes when it survives (keyed by the decimal rendering of its
position i in the search array), none when it is filtered out or its
subnet is empty. -/
def survivorAt (w : World) (key : String) (i : Nat) (e : JVal) :
    Option (String × JVal) :=
  match e with
  | .obj fs =>
    if entryMatches key fs then
      match queryResp (w.getResp (subnetResource ((jLookupFs fs "subnetId").getD .null))) with
      | .ok subnet =>
        if truthy subnet then
          match subnet with
          | .obj sfs =>
            some (pyStrNat i,
              .obj [("ipv4", (jLookupFs fs "ip").getD .null),
                    ("netmask", netmaskVal sfs),
                    ("description", (jLookupFs sfs "description").getD .null),
                    ("subnet_id", (jLookupFs fs "subnetId").getD .null)])
          | _ => none
        else none
      | .error _ => none
    else none
  | _ => none

/-- Specification view of the whole loop: the surviving records in order,
each keyed by its position in the original search array. -/
def specLoop (w : World) (key : String) : List JVal → Nat → List (String × JVal)
  | [], _ => []
  | e :: rest, i =>
    match survivorAt w key i e with
    | some p => p :: specLoop w key rest (i + 1)
    | none => specLoop w key rest (i + 1)

/-- Well-formedness of one search record with respect to the world: it is
a dictionary, and when it passes the filter its subnet query succeeds and
delivers either an empty result or a dictionary whose calculation field
is absent or a dictionary (so that no Python exception is raised). -/
def entryOK (w : World) (key : String) (e : JVal) : Bool :=
  match e with
  | .obj fs =>
    !entryMatches key fs ||
      (match queryResp (w.getResp (subnetResource ((jLookupFs fs "subnetId").getD .null))) with
       | .ok s =>
         !truthy s ||
           (match s with
            | .obj sfs =>
              (match jLookupFs sfs "calculation" with
               | some (.obj _) => true
               | some _ => false
               | none => true)
            | _ => false)
       | .error _ => false)
  | _ => false

theorem dictInsert_of_not_mem (k : String) (v : JVal) :
    ∀ d : List (String × JVal), k ∉ d.map Prod.fst →
      dictInsert d k v = d ++ [(k, v)] := by
  intro d
  induction d with
  | nil => intro _; rfl
  | cons p rest ih =>
    intro hk
    have hk1 : p.1 ≠ k := by
      intro h
      exact hk (by simp [h])
    have hk2 : k ∉ rest.map Prod.fst := by
      intro h
      exact hk (by simp [h])
    cases p with
    | mk k0 v0 =>
      simp only at hk1
      simp [dictInsert, hk1, ih hk2]

theorem getLoop_spec (api : Api) (w : World) (key : String) (dataL : List JVal)
    (hIdx : ∀ i (h : i < dataL.length), pyIndex dataL (dataL.get ⟨i, h⟩) = some i)
    (hOK : ∀ i (h : i < dataL.length), entryOK w key (dataL.get ⟨i, h⟩) = true) :
    ∀ todo i ret, dataL.drop i = todo →
      (∀ p ∈ ret, ∃ j, j < i ∧ p.1 = pyStrNat j) →
      (getLoop api w key dataL todo ret).1 = .ok (ret ++ specLoop w key todo i) := by
  intro todo
  induction todo with
  | nil => intro i ret _ _; simp [getLoop, specLoop]
  | cons e rest ih =>
    intro i ret hdrop hkeys
    have hi : i < dataL.length := by
      by_contra hge
      rw [List.drop_eq_nil_of_le (Nat.le_of_not_lt hge)] at hdrop
      exact absurd hdrop (by simp)
    have hgetq : dataL[i]? = some e := by
      have h0 : (dataL.drop i)[0]? = some e := by rw [hdrop]; simp
      rw [List.getElem?_drop] at h0
      simpa using h0
    have hget : dataL.get ⟨i, hi⟩ = e := by
      rw [List.getElem?_eq_getElem hi] at hgetq
      simpa [List.get_eq_getElem] using hgetq
    have hrest : dataL.drop (i + 1) = rest := by
      have h1 := List.tail_drop dataL i
      rw [hdrop] at h1
      simpa using h1.symm
    have hkeys1 : ∀ p ∈ ret, ∃ j, j < i + 1 ∧ p.1 = pyStrNat j := by
      intro p hp
      obtain ⟨j, hj, h⟩ := hkeys p hp
      exact ⟨j, Nat.lt_succ_of_lt hj, h⟩
    have hOKi := hOK i hi
    rw [hget] at hOKi
    cases e with
    | obj fs =>
      by_cases hm : entryMatches key fs = true
      · cases hq : queryResp (w.getResp (subnetResource ((jLookupFs fs "subnetId").getD .null))) with
        | error er => exfalso; simp [entryOK, hm, hq] at hOKi
        | ok s =>
          by_cases hts : truthy s = true
          · cases s with
            | obj sfs =>
              have hcalc : jLookupFs sfs "calculation" = none ∨
                  ∃ cfs, jLookupFs sfs "calculation" = some (.obj cfs) := by
                simp only [entryOK, hm, hq, hts] at hOKi
                cases hc2 : jLookupFs sfs "calculation" with
                | none => exact Or.inl rfl
                | some c =>
                  cases c with
                  | obj cfs => exact Or.inr ⟨cfs, rfl⟩
                  | null => rw [hc2] at hOKi; simp at hOKi
                  | bool b => rw [hc2] at hOKi; simp at hOKi
                  | num n => rw [hc2] at hOKi; simp at hOKi
                  | str t => rw [hc2] at hOKi; simp at hOKi
                  | arr xs => rw [hc2] at hOKi; simp at hOKi
              have hpi : pyIndex dataL (.obj fs) = some i := by
                have h1 := hIdx i hi; rw [hget] at h1; exact h1
              rw [getLoop_insert api w key dataL fs sfs rest ret i hm hq hts hcalc hpi]
              have hfresh : pyStrNat i ∉ ret.map Prod.fst := by
                intro hmem
                obtain ⟨p, hp, hp1⟩ := List.mem_map.mp hmem
                obtain ⟨j, hj, hpj⟩ := hkeys p hp
                rw [hpj] at hp1
                rw [pyStrNat_inj hp1] at hj
                exact Nat.lt_irrefl i hj
              rw [dictInsert_of_not_mem _ _ _ hfresh]
              have hkeys2 : ∀ p ∈ ret ++
                  [(pyStrNat i,
                    JVal.obj [("ipv4", (jLookupFs fs "ip").getD .null),
                              ("netmask", netmaskVal sfs),
                              ("description", (jLookupFs sfs "description").getD .null),
                              ("subnet_id", (jLookupFs fs "subnetId").getD .null)])],
                  ∃ j, j < i + 1 ∧ p.1 = pyStrNat j := by
                intro p hp
                rcases List.mem_append.mp hp with h | h
                · exact hkeys1 p h
                · rw [List.mem_singleton] at h
                  exact ⟨i, Nat.lt_succ_self i, by rw [h]⟩
              rw [ih (i + 1) _ hrest hkeys2]
              simp only [specLoop, survivorAt, hm, hq, hts, if_true, if_pos]
              simp [List.append_assoc]
            | null => exfalso; simp [truthy] at hts
            | bool b =>
              exfalso
              simp only [entryOK, hm, hq, hts] at hOKi
              simp at hOKi
            | num n =>
              exfalso
              simp only [entryOK, hm, hq, hts] at hOKi
              simp at hOKi
            | str t =>
              exfalso
              simp only [entryOK, hm, hq, hts] at hOKi
              simp at hOKi
            | arr xs =>
              exfalso
              simp only [entryOK, hm, hq, hts] at hOKi
              simp at hOKi
          · have hts2 : truthy s = false := by
              revert hts; cases truthy s <;> simp
            rw [getLoop_drop_empty_subnet api w key dataL fs rest ret s hm hq hts2,
                ih (i + 1) ret hrest hkeys1]
            simp [specLoop, survivorAt, hm, hq, hts2]
      · have hm2 : entryMatches key fs = false := by
          revert hm; cases entryMatches key fs <;> simp
        rw [getLoop_skip api w key dataL fs rest ret hm2,
            ih (i + 1) ret hrest hkeys1]
        simp [specLoop, survivorAt, hm2]
    | null => exact absurd hOKi (by simp [entryOK])
    | bool b => exact absurd hOKi (by simp [entryOK])
    | num n => exact absurd hOKi (by simp [entryOK])
    | str t => exact absurd hOKi (by simp [entryOK])
    | arr xs => exact absurd hOKi (by simp [entryOK])

end Phpipam

namespace Phpipam

/-- C2 (amended): when the search records are pairwise distinct (so that
data.index finds each record at its own position) and the world is
well-formed for them, get returns exactly the surviving records keyed by
the stringified position of each record in the original search array
(sparse keys, never re-indexed), each value being the
ipv4/netmask/description/subnet_id mapping built from the record and its
subnet query.  With duplicated equal records, data.index keys a survivor
at the position of the first equal record instead. -/
theorem C2_keying_amended (cfg : PhpipamConfig) (w : World) (key : String)
    (u us pw : String) (tok : JVal) (dataL : List JVal)
    (hc : resolveConfig cfg = .ok (u, us, pw)) (ha : getToken w = .ok tok)
    (hSearch : queryResp (w.getResp (searchResource key)) = .ok (.arr dataL))
    (hIdx : ∀ i (h : i < dataL.length), pyIndex dataL (dataL.get ⟨i, h⟩) = some i)
    (hOK : ∀ i (h : i < dataL.length), entryOK w key (dataL.get ⟨i, h⟩) = true) :
    (get cfg w key).1 = .ok (.obj (specLoop w key dataL 0)) := by
  have hini := init_ok cfg w u us pw tok hc ha
  cases dataL with
  | nil => simp [get, hini, Api.query, hSearch, truthy, specLoop]
  | cons e rest =>
    have htd : truthy (.arr (e :: rest)) = true := rfl
    have hspec := getLoop_spec
      { phpipam_url := u, user := us, password := pw, api_url := u ++ "/api/lookup/",
        verify := cfg.verify.getD defaultVerify, token := tok } w key (e :: rest) hIdx hOK
      (e :: rest) 0 [] (by simp) (by simp)
    cases hgl : getLoop
      { phpipam_url := u, user := us, password := pw, api_url := u ++ "/api/lookup/",
        verify := cfg.verify.getD defaultVerify, token := tok } w key (e :: rest) (e :: rest) [] with
    | mk r tr =>
      rw [hgl] at hspec
      simp only [List.nil_append] at hspec
      have hr : r = .ok (specLoop w key (e :: rest) 0) := hspec
      subst hr
      simp [get, hini, Api.query, hSearch, htd, jIter, hgl]

/-- A subnet body with netmask and description. -/
def subnetFullBody : List (String × JVal) :=
  [("data", .obj [("description", .str "lan"),
                  ("calculation", .obj [("Subnet netmask", .str "255.255.255.0")])])]

/-- A world whose hostname search returns the same record twice. -/
def wDup : World :=
  { authResp := authOK
    getResp := fun r =>
      if r = searchResource "h" then
        { status := 200, body := [("data", .arr [.obj fsH, .obj fsH])] }
      else if r = "subnets/5" then { status := 200, body := subnetFullBody }
      else { status := 200, body := msgBody } }

/-- The output record for fsH against subnetFullBody. -/
def recC : JVal :=
  .obj [("ipv4", .str "10.0.0.7"), ("netmask", .str "255.255.255.0"),
        ("description", .str "lan"), ("subnet_id", .str "5")]

/-- C2 counterexample: two identical surviving records; data.index keys
both writes at the first position, so the record at position 1 survives
yet the result holds a single entry keyed "0" and no key "1". -/
theorem C2_counterexample :
    entryMatches "h" fsH = true ∧
    (get cfgC wDup "h").1 = .ok (.obj [("0", recC)]) ∧
    jLookupFs [("0", recC)] "1" = none :=
  ⟨rfl, rfl, rfl⟩

/-- A record with a hostname that only partially matches. -/
def entryOtherHost : JVal :=
  .obj [("ip", .str "10.0.0.9"), ("hostname", .str "hx"), ("subnetId", .str "5")]

/-- A record with no ip field. -/
def entryNoIp : JVal := .obj [("hostname", .str "h")]

/-- A search result whose only survivor sits at position 2. -/
def dataSparse : List JVal := [entryOtherHost, entryNoIp, .obj fsH]

/-- A world serving the sparse search result. -/
def wSparse : World :=
  { authResp := authOK
    getResp := fun r =>
      if r = searchResource "h" then { status := 200, body := [("data", .arr dataSparse)] }
      else if r = "subnets/5" then { status := 200, body := subnetFullBody }
      else { status := 200, body := msgBody } }

/-- C2 witness: records 0 and 1 are filtered out and the survivor at
position 2 is keyed by the literal string "2". -/
theorem C2_keying_amended_witness :
    (get cfgC wSparse "h").1 = .ok (.obj (specLoop wSparse "h" dataSparse 0)) ∧
    specLoop wSparse "h" dataSparse 0 = [("2", recC)] :=
  ⟨C2_keying_amended cfgC wSparse "h" _ _ _ _ dataSparse rfl rfl rfl
    (by decide) (by decide), rfl⟩

end Phpipam
